import Mathlib

/-!
Verification development for the key-container parsing and unwrapping
pipeline of `libasignify/databuf.c` (asignify).

Bytes are modelled as `Nat` values (the C code reads `char`/`unsigned char`
through `isgraph`/`isspace`/`isdigit` and compares them as bytes), buffers
as `List Nat`, fallible C functions as `Option`/`Bool` returns, and the
in-place mutation of `struct asignify_private_key` as explicit record
passing.  External collaborator primitives (the PBKDF, the digest, the
password callback, the CSPRNG canary bytes) are parameters of the
embedding, as the design document scopes them out of the core.
-/

set_option maxRecDepth 20000

/-- ctype `isgraph`: printable characters other than space. -/
def isgraphB (c : Nat) : Bool := 33 ≤ c && c ≤ 126

/-- ctype `isspace`: space, tab, newline, vertical tab, form feed, carriage return. -/
def isspaceB (c : Nat) : Bool := c == 32 || (9 ≤ c && c ≤ 13)

/-- ctype `isdigit`. -/
def isdigitB (c : Nat) : Bool := 48 ≤ c && c ≤ 57

/-- Byte content of a string literal (ASCII). -/
def bytes (s : String) : List Nat := s.toList.map Char.toNat

/-- The bytes of a NUL-terminated C string: everything strictly before the first 0. -/
def cstring (l : List Nat) : List Nat := l.takeWhile (fun c => c != 0)

/-- The value of a decimal digit string. -/
def natOfDigits (l : List Nat) : Nat := l.foldl (fun a c => a * 10 + (c - 48)) 0

/-- `strtoul(p, &end, 10)`: skip whitespace, consume decimal digits.
Returns the parsed value and the number of characters consumed; when no
digit is found nothing is consumed and the value is 0 (the call sites in
this file never present a sign, which is therefore not modelled). -/
def strtoul10 (l : List Nat) : Nat × Nat :=
  let ws := (l.takeWhile isspaceB).length
  let digits := (l.drop ws).takeWhile isdigitB
  if digits.isEmpty then (0, 0) else (natOfDigits digits, ws + digits.length)

/-- Reading a byte of a C string buffer: positions past the modelled
content read the terminating NUL. -/
def charAt (l : List Nat) (i : Nat) : Nat := l.getD i 0

/-- Overwrite the first `n` bytes of `l` with zero bytes
(`explicit_memzero(l, n)`); bytes past `n` are untouched. -/
def memzeroPrefix (n : Nat) (l : List Nat) : List Nat :=
  List.replicate (min n l.length) 0 ++ l.drop n

/- ## Constants

The numeric constants live in headers that accompany `databuf.c`
(`asignify_internal.h`, `blake2.h`, `tweetnacl.h`); only their use sites
are in the source file at hand. -/

/-- Modelled from the spec: `PRIVKEY_MAGIC`, the exact magic first line of a
private-key container, `ASIGN-PRIV-KEY:` (§8 concrete scenario); the
defining header is not part of the analysed source. -/
def PRIVKEY_MAGIC : List Nat := bytes "ASIGN-PRIV-KEY:"

/-- Modelled from the spec: `PBKDF_ALG`, the supported KDF name (the header
defining it is not part of the analysed source; no claim depends on its
exact spelling). -/
def PBKDF_ALG : List Nat := bytes "pbkdf2-blake2"

/-- Modelled from the spec: `PBKDF_MINROUNDS`, the minimal accepted KDF
round count (`rounds >= MIN_ROUNDS` in §3). -/
def PBKDF_MINROUNDS : Nat := 10000

/-- `SALT_LEN`: decoded byte length of the `salt` field. -/
def SALT_LEN : Nat := 16

/-- `KEY_ID_LEN`: decoded byte length of the `id` field (8, §8 scenario). -/
def KEY_ID_LEN : Nat := 8

/-- `BLAKE2B_OUTBYTES`: digest length, decoded length of `checksum`. -/
def BLAKE2B_OUTBYTES : Nat := 64

/-- `crypto_sign_SECRETKEYBYTES`: secret-key length, decoded length of `data`. -/
def crypto_sign_SECRETKEYBYTES : Nat := 64

/- ## FieldRegistry (`parser_fields`) -/

/-- `enum asignify_privkey_field`. -/
inductive PrivkeyFieldType where
  | fstring
  | fuint
  | fhex
deriving DecidableEq

/-- The struct slot a registry entry writes through (`struct_offset` in the
source selects a member of `struct asignify_private_key`). -/
inductive PrivkeySlot where
  | checksum
  | data
  | id
  | kdf
  | rounds
  | salt
deriving DecidableEq

/-- One entry of `parser_fields` (`struct asignify_privkey_parser`; that C
tag name is not a legal identifier here). -/
structure PrivkeyFieldDesc where
  field_name : List Nat
  field_type : PrivkeyFieldType
  slot : PrivkeySlot
  required_len : Nat
deriving DecidableEq

/-- `parser_fields`: the static table, kept sorted by field name. -/
def parser_fields : List PrivkeyFieldDesc :=
  [ { field_name := bytes "checksum", field_type := .fhex, slot := .checksum,
      required_len := BLAKE2B_OUTBYTES },
    { field_name := bytes "data", field_type := .fhex, slot := .data,
      required_len := crypto_sign_SECRETKEYBYTES },
    { field_name := bytes "id", field_type := .fhex, slot := .id,
      required_len := KEY_ID_LEN },
    { field_name := bytes "kdf", field_type := .fstring, slot := .kdf,
      required_len := 0 },
    { field_name := bytes "rounds", field_type := .fuint, slot := .rounds,
      required_len := 0 },
    { field_name := bytes "salt", field_type := .fhex, slot := .salt,
      required_len := SALT_LEN } ]

/-- `strncmp(key->begin, p->field_name, key->len)` where the first argument
is the (non-NUL-terminated) key of length `key.length` and the second is a
NUL-terminated registry name: compare at most `key.length` characters,
stopping at the name's terminating NUL. -/
def strncmpKey : List Nat → List Nat → Int
  | [], _ => 0
  | k :: _, [] => if k = 0 then 0 else (k : Int)
  | k :: ks, b :: bs =>
      if k = b then (if k = 0 then 0 else strncmpKey ks bs)
      else (k : Int) - (b : Int)

/-- `asignify_parser_fields_cmp`: the `bsearch` comparator — an `strncmp`
limited to the length of the looked-up key. -/
def asignify_parser_fields_cmp (key : List Nat) (e : PrivkeyFieldDesc) : Int :=
  strncmpKey key e.field_name

/-- One step of the C library `bsearch` over `parser_fields` (half-interval
search on indices, probing the middle element). -/
def bsearchFieldsGo (key : List Nat) : Nat → Nat → Nat → Option PrivkeyFieldDesc
  | _, _, 0 => none
  | l, u, fuel + 1 =>
      if l < u then
        let idx := (l + u) / 2
        match parser_fields.get? idx with
        | none => none
        | some e =>
            let c := asignify_parser_fields_cmp key e
            if c < 0 then bsearchFieldsGo key l idx fuel
            else if 0 < c then bsearchFieldsGo key (idx + 1) u fuel
            else some e
      else none

/-- `bsearch(&k, parser_fields, 6, sizeof(entry), asignify_parser_fields_cmp)`. -/
def bsearchFields (key : List Nat) : Option PrivkeyFieldDesc :=
  bsearchFieldsGo key 0 parser_fields.length (parser_fields.length + 2)

/- ## PrivateKeyRecord (`struct asignify_private_key`) -/

/-- `struct asignify_private_key`, zero-initialised by the loader.  Pointer
members are `Option (List Nat)` (`none` = `NULL`); `pbkdf_alg` holds the
bytes of the stored C string. -/
structure PrivKeyRecord where
  version : Nat
  pbkdf_alg : Option (List Nat)
  rounds : Nat
  salt : Option (List Nat)
  id : Option (List Nat)
  encrypted_blob : Option (List Nat)
  checksum : Option (List Nat)
deriving DecidableEq

/-- The all-zero record produced by `memset(&privk, 0, sizeof(privk))`. -/
def zeroRecord : PrivKeyRecord :=
  { version := 0, pbkdf_alg := none, rounds := 0, salt := none,
    id := none, encrypted_blob := none, checksum := none }

/-- Store through a pointer-valued struct offset (`STRUCT_MEMBER_PTR` with a
`char *` / `unsigned char *` member).  The table ties the `rounds` offset to
the integer kind only, so it is never written through here. -/
def setSlotPtr (k : PrivKeyRecord) (s : PrivkeySlot) (v : Option (List Nat)) :
    PrivKeyRecord :=
  match s with
  | .checksum => { k with checksum := v }
  | .data => { k with encrypted_blob := v }
  | .id => { k with id := v }
  | .kdf => { k with pbkdf_alg := v }
  | .salt => { k with salt := v }
  | .rounds => k

/-- Store through the integer struct offset (only `rounds` has it). -/
def setSlotUint (k : PrivKeyRecord) (s : PrivkeySlot) (v : Nat) : PrivKeyRecord :=
  match s with
  | .rounds => { k with rounds := v }
  | _ => k

/-- The hexadecimal value of one character, as `hexval` inside the decoder. -/
def hexVal (c : Nat) : Option Nat :=
  if 48 ≤ c ∧ c ≤ 57 then some (c - 48)
  else if 97 ≤ c ∧ c ≤ 102 then some (c - 87)
  else if 65 ≤ c ∧ c ≤ 70 then some (c - 55)
  else none

/-- Modelled from the spec: `hex2bin` (repository file `util.c`, absent from
the analysed source).  §4.3: decode hex to binary into a destination of
`binlen` bytes; an invalid hex digit is an error; character pairs are
consumed while both a pair of input characters and output space remain. -/
def hex2bin : Nat → List Nat → Option (List Nat)
  | 0, _ => some []
  | _ + 1, [] => some []
  | _ + 1, [_] => some []
  | b + 1, c1 :: c2 :: rest =>
      match hexVal c1, hexVal c2 with
      | some hi, some lo =>
          match hex2bin b rest with
          | some tl => some ((hi * 16 + lo) :: tl)
          | none => none
      | _, _ => none

/-- The buffer written by the `PRIVKEY_FIELD_STRING` case, read back as a C
string: `dest = xmalloc(len + 1); memcpy(dest, val, len); **dests = '\0';`
— the source writes the terminating NUL through `**dests`, i.e. at offset 0
of the fresh buffer.  The final byte of the allocation is written only when
`len = 0` (where it is that very NUL); it is modelled as 0, which the
C-string reading can reach only in that case. -/
def privkeyStringValue (val : List Nat) : List Nat :=
  cstring ((val ++ [0]).set 0 0)

/-- `ULONG_MAX` for the 64-bit `unsigned long` of `strtoul`. -/
def ULONG_MAX : Nat := 2 ^ 64 - 1

/-- `asignify_private_data_parse_value`: convert one raw value according to
its registry entry and store it into the record.  Returns the C `bool`
together with the (possibly mutated) record. -/
def asignify_private_data_parse_value (val : List Nat) (e : PrivkeyFieldDesc)
    (privk : PrivKeyRecord) : Bool × PrivKeyRecord :=
  match e.field_type with
  | .fstring =>
      (true, setSlotPtr privk e.slot (some (privkeyStringValue val)))
  | .fhex =>
      if val.length / 2 ≠ e.required_len then (false, privk)
      else
        match hex2bin (val.length / 2) val with
        | none => (false, setSlotPtr privk e.slot none)
        | some bs => (true, setSlotPtr privk e.slot (some bs))
  | .fuint =>
      let digits := val.takeWhile isdigitB
      let v := natOfDigits digits
      if ULONG_MAX < v then
        (false, setSlotUint privk e.slot (ULONG_MAX % 2 ^ 32))
      else
        (true, setSlotUint privk e.slot (v % 2 ^ 32))

/- ## LineParser (`asignify_private_data_parse_line`) -/

/-- The parser states of `asignify_private_data_parse_line`. -/
inductive PLState where
  | pname
  | psemicolon
  | pvalue
  | pspaces
  | perror
deriving DecidableEq

/-- The slice of the buffer between character pointers `c` (inclusive) and
`p` (exclusive). -/
def bufSlice (buf : List Nat) (c p : Nat) : List Nat :=
  (buf.drop c).take (p - c)

/-- The body of the `while (p < end)` loop of
`asignify_private_data_parse_line`.  `p` and `c` are the character pointers
as indices into `buf`, `st`/`nextSt` are `state`/`next_state`, `desc` is the
`parser` variable.  The loop always terminates — at most three transitions
happen without advancing `p` — and is given `4 * buflen + 8` fuel, which it
can never exhaust; exhaustion returns the error outcome. -/
def parseLineGo (buf : List Nat) :
    Nat → Nat → Nat → PLState → PLState → Option PrivkeyFieldDesc →
    PrivKeyRecord → Bool × PrivKeyRecord
  | 0, _, _, _, _, _, privk => (false, privk)
  | fuel + 1, p, c, st, nextSt, desc, privk =>
      if p < buf.length then
        let ch := charAt buf p
        match st with
        | .pname =>
            if ch = 58 then
              if 0 < p - c then
                match bsearchFields (bufSlice buf c p) with
                | none => parseLineGo buf fuel p c .perror nextSt desc privk
                | some e => parseLineGo buf fuel p c .psemicolon nextSt (some e) privk
              else parseLineGo buf fuel p c .perror nextSt desc privk
            else if ¬ isgraphB ch then
              parseLineGo buf fuel p c .perror nextSt desc privk
            else parseLineGo buf fuel (p + 1) c .pname nextSt desc privk
        | .psemicolon =>
            if ch = 58 then
              parseLineGo buf fuel (p + 1) c .pspaces .pvalue desc privk
            else parseLineGo buf fuel p c .perror nextSt desc privk
        | .pvalue =>
            match desc with
            | none => parseLineGo buf fuel p c .perror nextSt desc privk
            | some e =>
                if e.field_type = .fuint ∧ ¬ isdigitB ch then
                  parseLineGo buf fuel p c .perror nextSt desc privk
                else if ch = 10 then
                  match asignify_private_data_parse_value (bufSlice buf c p) e privk with
                  | (false, privk2) => parseLineGo buf fuel p c .perror nextSt desc privk2
                  | (true, privk2) => parseLineGo buf fuel p c .pspaces .pname desc privk2
                else parseLineGo buf fuel (p + 1) c .pvalue nextSt desc privk
        | .pspaces =>
            if isspaceB ch then parseLineGo buf fuel (p + 1) c .pspaces nextSt desc privk
            else parseLineGo buf fuel p p nextSt nextSt none privk
        | .perror => (false, privk)
      else (decide (st = .pspaces), privk)

/-- `asignify_private_data_parse_line(buf, buflen, privk)`: run the state
machine over the whole buffer (`buflen` = length of the modelled buffer;
the caller in `asignify_private_data_load` passes its `getline` buffer
here).  Initial state is `PARSE_NAME` with `next_state` 0 (= `PARSE_NAME`),
`c = buf` and no resolved field. -/
def asignify_private_data_parse_line (buf : List Nat) (privk : PrivKeyRecord) :
    Bool × PrivKeyRecord :=
  parseLineGo buf (4 * buf.length + 8) 0 0 .pname .pname none privk

/- ## SanityChecker (`asignify_private_key_is_sane`) -/

/-- `privk->pbkdf_alg && strcmp(privk->pbkdf_alg, PBKDF_ALG) == 0`. -/
def pbkdfAlgMatches (k : PrivKeyRecord) : Bool :=
  match k.pbkdf_alg with
  | some a => a = PBKDF_ALG
  | none => false

/-- `asignify_private_key_is_sane`: pure predicate distinguishing the
encrypted and plaintext record shapes, mirroring the source's nesting. -/
def asignify_private_key_is_sane (k : PrivKeyRecord) : Bool :=
  if pbkdfAlgMatches k then
    if PBKDF_MINROUNDS ≤ k.rounds then
      if k.salt.isSome then
        if k.version = 1 then
          if k.id.isSome && k.encrypted_blob.isSome && k.checksum.isSome then
            true
          else false
        else false
      else false
    else false
  else
    if k.version = 1 then
      if k.id.isSome && k.encrypted_blob.isSome then true else false
    else false

/- ## KeyUnpacker (`asignify_private_data_unpack_key`) -/

/-- `struct asignify_private_data` (SecretMaterial). -/
structure PrivData where
  data : List Nat
  data_len : Nat
  id : List Nat
  id_len : Nat
deriving DecidableEq

/-- A password capability: receives the 1024-byte password buffer (with the
canary already installed in its last 10 bytes) and yields the buffer
contents after its writes together with its `int` return value.  The opaque
`d` argument of the C callback is absorbed into the closure. -/
def PasswordCb : Type := List Nat → List Nat × Int

/-- `sizeof(password)` in `asignify_private_data_unpack_key`. -/
def PASSWORD_BUF_LEN : Nat := 1024

/-- `sizeof(canary)`. -/
def CANARY_LEN : Nat := 10

/-- The contents of `privk->encrypted_blob` at the moment
`asignify_privkey_cleanup` frees it: `explicit_memzero(encrypted_blob,
crypto_sign_SECRETKEYBYTES)` runs first whenever the pointer is non-null. -/
def cleanupBlobContents (blob : Option (List Nat)) : Option (List Nat) :=
  blob.map (memzeroPrefix crypto_sign_SECRETKEYBYTES)

/-- Result of `asignify_private_data_unpack_key` together with the final
contents of every secret-bearing buffer the function touches:
`password` and `xorkey` are the stack arrays at function return,
`blobAtFree` is the record's blob at the moment it is freed, `cleaned`
records that `asignify_privkey_cleanup(privk)` ran, and the two `Held`
flags are ghost instrumentation marking that the password buffer was handed
to the capability / that the derived key was written into `xorkey`. -/
structure UnpackFinal where
  ret : Option PrivData
  password : List Nat
  xorkey : List Nat
  blobAtFree : Option (List Nat)
  cleaned : Bool
  passwordHeld : Bool
  xorkeyHeld : Bool
deriving DecidableEq

/-- `asignify_private_data_unpack_key(privk, password_cb, d)`.

Parameters beyond the C signature make the surrounding machine state
explicit: `canary` is what `randombytes(canary, 10)` produced, `pwInit` and
`xkInit` are the arbitrary initial contents of the uninitialised stack
arrays `password[1024]` and `xorkey[64]`, `kdf` is
`pkcs5_pbkdf2(pass, passlen, salt, SALT_LEN, key, 64, rounds)` (returning
`none` on failure, in which case it writes nothing), and `digest` is
`blake2b(out, in, NULL, 64, 64, 0)` on the 64 input bytes. -/
def asignify_private_data_unpack_key (privk : PrivKeyRecord)
    (cb : Option PasswordCb) (canary pwInit xkInit : List Nat)
    (kdf : List Nat → List Nat → Nat → Option (List Nat))
    (digest : List Nat → List Nat) : UnpackFinal :=
  match privk.pbkdf_alg with
  | some _ =>
      match cb with
      | none =>
          { ret := none, password := pwInit, xorkey := xkInit,
            blobAtFree := cleanupBlobContents privk.encrypted_blob,
            cleaned := true, passwordHeld := false, xorkeyHeld := false }
      | some f =>
          let pw0 := pwInit.take (PASSWORD_BUF_LEN - CANARY_LEN) ++ canary
          let pr := f pw0
          let pw1 := pr.1
          let r := pr.2
          if r ≤ 0 ∨ ((PASSWORD_BUF_LEN - CANARY_LEN : Nat) : Int) < r ∨
              (pw1.drop (PASSWORD_BUF_LEN - CANARY_LEN)).take CANARY_LEN ≠
                canary.take CANARY_LEN then
            { ret := none, password := List.replicate PASSWORD_BUF_LEN 0,
              xorkey := xkInit,
              blobAtFree := cleanupBlobContents privk.encrypted_blob,
              cleaned := true, passwordHeld := true, xorkeyHeld := false }
          else
            match kdf (pw1.take r.toNat) ((privk.salt.getD []).take SALT_LEN)
                privk.rounds with
            | none =>
                { ret := none, password := List.replicate PASSWORD_BUF_LEN 0,
                  xorkey := xkInit,
                  blobAtFree := cleanupBlobContents privk.encrypted_blob,
                  cleaned := true, passwordHeld := true, xorkeyHeld := false }
            | some key =>
                let xk0 := key ++ xkInit.drop key.length
                let blob0 := privk.encrypted_blob.getD []
                let blob1 :=
                  List.zipWith (fun a b => a ^^^ b)
                      (blob0.take crypto_sign_SECRETKEYBYTES)
                      (xk0.take crypto_sign_SECRETKEYBYTES) ++
                    blob0.drop crypto_sign_SECRETKEYBYTES
                let ck := digest (blob1.take crypto_sign_SECRETKEYBYTES)
                if ck.take BLAKE2B_OUTBYTES ≠
                    (privk.checksum.getD []).take BLAKE2B_OUTBYTES then
                  { ret := none, password := List.replicate PASSWORD_BUF_LEN 0,
                    xorkey := List.replicate 64 0,
                    blobAtFree :=
                      some (memzeroPrefix crypto_sign_SECRETKEYBYTES
                        (memzeroPrefix crypto_sign_SECRETKEYBYTES blob1)),
                    cleaned := true, passwordHeld := true, xorkeyHeld := true }
                else
                  { ret := some
                      { data := blob1.take crypto_sign_SECRETKEYBYTES,
                        data_len := crypto_sign_SECRETKEYBYTES,
                        id := (privk.id.getD []).take KEY_ID_LEN,
                        id_len := KEY_ID_LEN },
                    password := List.replicate PASSWORD_BUF_LEN 0,
                    xorkey := List.replicate 64 0,
                    blobAtFree :=
                      some (memzeroPrefix crypto_sign_SECRETKEYBYTES
                        (memzeroPrefix crypto_sign_SECRETKEYBYTES blob1)),
                    cleaned := true, passwordHeld := true, xorkeyHeld := true }
  | none =>
      { ret := some
          { data := (privk.encrypted_blob.getD []).take crypto_sign_SECRETKEYBYTES,
            data_len := crypto_sign_SECRETKEYBYTES,
            id := (privk.id.getD []).take KEY_ID_LEN,
            id_len := KEY_ID_LEN },
        password := pwInit, xorkey := xkInit,
        blobAtFree := cleanupBlobContents
          (privk.encrypted_blob.map (memzeroPrefix crypto_sign_SECRETKEYBYTES)),
        cleaned := true, passwordHeld := false, xorkeyHeld := false }

/- ## Private-key loader (`asignify_private_data_load`) -/

/-- The loop of `asignify_private_data_load`: `bufs` are the successive
`getline` buffers handed to the body — each holds one line of the file
followed by the terminating NUL that `getline` writes and any further
allocator slack, because the source passes the buffer *capacity* `buflen`
(not the returned line length) to `asignify_private_data_parse_line`. -/
def privateDataLoadGo (cb : Option PasswordCb) (canary pwInit xkInit : List Nat)
    (kdf : List Nat → List Nat → Nat → Option (List Nat))
    (digest : List Nat → List Nat) :
    List (List Nat) → Bool → PrivKeyRecord → Option PrivData
  | [], _, privk =>
      if asignify_private_key_is_sane privk then
        (asignify_private_data_unpack_key privk cb canary pwInit xkInit
          kdf digest).ret
      else none
  | buf :: rest, first, privk =>
      if first then
        if buf.take PRIVKEY_MAGIC.length = PRIVKEY_MAGIC then
          privateDataLoadGo cb canary pwInit xkInit kdf digest rest false privk
        else none
      else
        match asignify_private_data_parse_line buf privk with
        | (false, _) => none
        | (true, privk2) =>
            privateDataLoadGo cb canary pwInit xkInit kdf digest rest false privk2

/-- `asignify_private_data_load(f, password_cb, d)`: read lines to EOF —
the first must start with the magic — parse each following line into the
zero-initialised record, check sanity, and unpack. -/
def asignify_private_data_load (bufs : List (List Nat)) (cb : Option PasswordCb)
    (canary pwInit xkInit : List Nat)
    (kdf : List Nat → List Nat → Nat → Option (List Nat))
    (digest : List Nat → List Nat) : Option PrivData :=
  privateDataLoadGo cb canary pwInit xkInit kdf digest bufs true zeroRecord

/- ## PublicContainerLoader (`asignify_public_data_load`) -/

/-- `struct asignify_public_data`. -/
structure PublicData where
  version : Nat
  data_len : Nat
  id_len : Nat
  id : List Nat
  data : List Nat
deriving DecidableEq

/-- Value of one base64 alphabet character. -/
def b64Val (c : Nat) : Option Nat :=
  if 65 ≤ c ∧ c ≤ 90 then some (c - 65)
  else if 97 ≤ c ∧ c ≤ 122 then some (c - 71)
  else if 48 ≤ c ∧ c ≤ 57 then some (c + 4)
  else if c = 43 then some 62
  else if c = 47 then some 63
  else none

/-- Decode base64 four-character groups; `=` padding (byte 61) is accepted
in the final group only; any other non-alphabet character, a group of fewer
than four characters, or padding in a non-final group is an error. -/
def b64DecodeGroups : List Nat → Option (List Nat)
  | [] => some []
  | c1 :: c2 :: c3 :: c4 :: rest =>
      match b64Val c1, b64Val c2 with
      | some a, some b =>
          if c3 = 61 then
            if c4 = 61 ∧ rest = [] then some [a * 4 + b / 16] else none
          else
            match b64Val c3 with
            | some c =>
                if c4 = 61 then
                  if rest = [] then some [a * 4 + b / 16, b % 16 * 16 + c / 4]
                  else none
                else
                  match b64Val c4, b64DecodeGroups rest with
                  | some d, some tl =>
                      some ((a * 4 + b / 16) :: (b % 16 * 16 + c / 4) ::
                        (c % 4 * 64 + d) :: tl)
                  | _, _ => none
            | none => none
      | _, _ => none
  | _ => none

/-- Modelled from the spec: `b64_pton_stop` (repository file `b64_pton.c`,
absent from the analysed source).  §6: a base64 decoder with
stop-at-delimiter semantics — consume characters up to the first stop
character (or the end of the C string), decode them, and fail if the input
is not valid base64 or the decoded bytes exceed `targsize`. -/
def b64_pton_stop (l : List Nat) (targsize : Nat) (stop : List Nat) :
    Option (List Nat) :=
  let seg := l.takeWhile (fun c => !(stop.contains c || c == 0))
  match b64DecodeGroups seg with
  | none => none
  | some bs => if targsize < bs.length then none else some bs

/-- `strchr(l + start, c)` on a C string: index (relative to `start`) of the
first occurrence of `c` before the terminating NUL. -/
def strchrFrom (l : List Nat) (start : Nat) (c : Nat) : Option Nat :=
  ((l.drop start).takeWhile (fun x => x != 0)).findIdx? (fun x => x = c)

/-- `asignify_public_data_load(buf, buflen, magic, magiclen, ver_min,
ver_max, id_len, data_len)`: native format `<PUBKEY_MAGIC>:<version>:<id>:<pkey>`.
`magic` is the magic prefix of length `magiclen`. -/
def asignify_public_data_load (buf magic : List Nat)
    (ver_min ver_max id_len data_len : Nat) : Option PublicData :=
  if buf.length ≤ magic.length ∨ buf.take magic.length ≠ magic then none
  else
    let p := magic.length - 1
    let vr := strtoul10 (buf.drop p)
    if charAt buf (p + vr.2) ≠ 58 ∨ vr.1 < ver_min ∨ ver_max < vr.1 then none
    else
      let rdata_len := id_len
      let rid_len := data_len
      match b64_pton_stop (buf.drop p) rid_len [58] with
      | none => none
      | some idb =>
          if idb.length ≠ rid_len then none
          else
            match strchrFrom buf p 58 with
            | none => none
            | some off =>
                match b64_pton_stop (buf.drop (p + off + 1)) rdata_len [] with
                | none => none
                | some datab =>
                    if datab.length ≠ rdata_len then none
                    else some
                      { version := 1, data_len := rdata_len, id_len := rid_len,
                        id := idb, data := datab }

/- ## Helper lemmas -/

theorem takeAppendLen {α : Type} (l r : List α) : (l ++ r).take l.length = l := by
  induction l with
  | nil => rfl
  | cons x xs ih => simp [List.take, ih]

theorem takeOfLengthEq {α : Type} (l : List α) (n : Nat) (h : l.length = n) :
    l.take n = l := by
  subst h
  exact l.take_length

theorem dropOfLengthLe {α : Type} : ∀ (l : List α) (n : Nat), l.length ≤ n →
    l.drop n = []
  | [], _, _ => by simp
  | _ :: _, 0, h => by simp at h
  | _ :: xs, n + 1, h => by
      simpa using dropOfLengthLe xs n (by simpa using h)

theorem dropAppendOfLe {α : Type} : ∀ (l r : List α) (n : Nat), l.length ≤ n →
    (l ++ r).drop n = r.drop (n - l.length)
  | [], _, _, _ => by simp
  | _ :: _, _, 0, h => by simp at h
  | _ :: xs, r, n + 1, h => by
      simpa using dropAppendOfLe xs r n (by simpa using h)

theorem zipWithXorCancel : ∀ (a b : List Nat), a.length = b.length →
    List.zipWith (fun x y => x ^^^ y) (List.zipWith (fun x y => x ^^^ y) a b) b = a
  | [], [], _ => rfl
  | [], _ :: _, h => by simp at h
  | _ :: _, [], h => by simp at h
  | x :: xs, y :: ys, h => by
      simp only [List.zipWith, List.cons.injEq]
      exact ⟨Nat.xor_cancel_right y x, zipWithXorCancel xs ys (by simpa using h)⟩

theorem memzeroPrefixEq (n : Nat) (l : List Nat) (h : l.length = n) :
    memzeroPrefix n l = List.replicate n 0 := by
  simp [memzeroPrefix, h, dropOfLengthLe l n h.le]

/- ## Claim theorems -/

/-- The well-formed unencrypted private-key file of the §8 concrete
scenario, as the loader's loop sees it: each `getline` buffer holds the
line followed by the NUL that `getline` writes (the minimal capacity;
the loader passes the capacity, not the line length, to the line parser). -/
def plainKeyFileBufs : List (List Nat) :=
  [ bytes "ASIGN-PRIV-KEY:1\n" ++ [0],
    bytes "id:" ++ List.replicate 16 48 ++ bytes "\n" ++ [0],
    bytes "data:" ++ List.replicate 128 48 ++ bytes "\n" ++ [0] ]

/-- C3: the claim says a private-key file with the exact magic first line
and valid `id`/`data` hex fields of the correct lengths (no `kdf` line)
loads successfully with the decoded `data`.  The code rejects it:
`asignify_private_data_load` passes the `getline` buffer capacity to the
line parser (so the terminating NUL is scanned and errors), the parser
clears the resolved field descriptor when leaving `PARSE_SPACES` so
`PARSE_VALUE` always errors, and nothing ever sets `version = 1`, so the
sanity check cannot pass.  The load returns no result for every password
capability and collaborator instantiation. -/
theorem private_data_load_wellformed_plain_file_fails
    (cb : Option PasswordCb) (canary pwInit xkInit : List Nat)
    (kdf : List Nat → List Nat → Nat → Option (List Nat))
    (digest : List Nat → List Nat) :
    asignify_private_data_load plainKeyFileBufs cb canary pwInit xkInit
      kdf digest = none := by
  rfl

/-- C4: the claim says the text (`PRIVKEY_FIELD_STRING`) conversion stores
the raw value verbatim as a NUL-terminated string.  The code writes the
terminating NUL through `**dests`, i.e. at offset 0 of the fresh buffer,
so the stored C string is empty for every value: here the `kdf` value
`pbkdf2-blake2` is stored as the empty string, not verbatim. -/
theorem parse_value_string_stores_empty :
    asignify_private_data_parse_value (bytes "pbkdf2-blake2")
        { field_name := bytes "kdf", field_type := .fstring, slot := .kdf,
          required_len := 0 } zeroRecord =
      (true, { zeroRecord with pbkdf_alg := some [] }) ∧
    privkeyStringValue (bytes "pbkdf2-blake2") ≠ bytes "pbkdf2-blake2" := by
  exact ⟨by decide, by decide⟩

/-- C5: the claim says a `rounds` line whose value is all decimal digits
followed by the line terminator parses successfully and stores the
integer.  The code returns failure on `rounds:123\n` and stores nothing:
the descriptor is cleared on the `PARSE_SPACES` → `PARSE_VALUE` transition
(`parser = NULL`), which `PARSE_VALUE` treats as an error — and even with
a descriptor, the unsigned-decimal digit test is checked before the line
terminator test, so the terminating newline itself would be rejected as a
non-digit. -/
theorem parse_line_uint_digit_line_fails :
    asignify_private_data_parse_line (bytes "rounds:123\n") zeroRecord =
      (false, zeroRecord) := by
  decide

/-- C6: the claim says a name token that is not exactly one of the six
registered field names — e.g. the strict prefix `check` of `checksum` —
fails the field lookup.  The lookup succeeds: the comparator is an
`strncmp` limited to the key's length with no length equality test, so
`check` compares equal to `checksum` and the binary search returns the
checksum descriptor. -/
theorem field_lookup_accepts_prefix_name :
    bsearchFields (bytes "check") =
      some { field_name := bytes "checksum", field_type := .fhex,
             slot := .checksum, required_len := BLAKE2B_OUTBYTES } := by
  decide

/-- C7: the claim says the hex conversion rejects every raw value whose
character length is not exactly twice the required byte length, in
particular one of length `2 * required_len + 1`.  The length test divides
(`len / 2 != required_len`), so a 33-character value for the 16-byte
`salt` field passes it; the decoder consumes 16 pairs, ignores the
trailing character, and the conversion succeeds and stores 16 bytes. -/
theorem parse_value_hex_accepts_odd_length :
    asignify_private_data_parse_value (List.replicate 33 48)
        { field_name := bytes "salt", field_type := .fhex, slot := .salt,
          required_len := SALT_LEN } zeroRecord =
      (true, { zeroRecord with salt := some (List.replicate 16 0) }) := by
  decide

/-- The §8 concrete public container `EdPK:1:<base64 8-byte id>:<base64
32-byte key>` (zero id and key bytes). -/
def edpkContainer : List Nat :=
  bytes "EdPK:1:" ++ (List.replicate 11 65 ++ [61]) ++ [58] ++
    (List.replicate 43 65 ++ [61])

/-- C9: the claim says this container is accepted with version range
`[1,1]`, `id_len = 8`, `data_len = 32`.  The code rejects it: `p` is
advanced by `magiclen - 1`, so the version parse starts on the magic's own
trailing `:` and yields 0 (out of range); moreover `res->data_len`/`res->id_len`
are assigned from the swapped caller lengths, so the id segment would have
to decode to `data_len` bytes and the data segment to `id_len` bytes. -/
theorem public_data_load_rejects_valid_container :
    asignify_public_data_load edpkContainer (bytes "EdPK:") 1 1 8 32 = none := by
  decide

/-- C10: whenever `asignify_public_data_load` returns a container, its
`version` field is the literal 1 (`res->version = 1;`); the version parsed
from the input is consulted only by the range check and never stored. -/
theorem public_data_load_version_is_one (buf magic : List Nat)
    (ver_min ver_max id_len data_len : Nat) (res : PublicData)
    (h : asignify_public_data_load buf magic ver_min ver_max id_len data_len =
      some res) : res.version = 1 := by
  unfold asignify_public_data_load at h
  split at h
  · exact Option.noConfusion h
  · dsimp only at h
    split at h
    · exact Option.noConfusion h
    · split at h
      · exact Option.noConfusion h
      · split at h
        · exact Option.noConfusion h
        · split at h
          · exact Option.noConfusion h
          · split at h
            · exact Option.noConfusion h
            · split at h
              · exact Option.noConfusion h
              · cases h
                rfl

/-- The container accepted in the witness for C10 (the swapped stored
lengths make `data_len = 0`, `id_len = 3` the accepted shape for a
three-byte payload). -/
def pubVersionWitnessRes : PublicData :=
  { version := 1, data_len := 3, id_len := 0, id := [], data := [65, 66, 67] }

/-- Witness for the C10 theorem: a concrete accepted container. -/
theorem public_data_load_version_is_one_witness :
    asignify_public_data_load (bytes "EdPK:QUJD") (bytes "EdPK:") 0 5 3 0 =
      some pubVersionWitnessRes ∧ pubVersionWitnessRes.version = 1 :=
  ⟨by decide,
   public_data_load_version_is_one (bytes "EdPK:QUJD") (bytes "EdPK:") 0 5 3 0
     pubVersionWitnessRes (by decide)⟩

/-- The *Encrypted* sane shape, stated from the spec's words (§3):
`pbkdf_algorithm` present and equal to the supported KDF name, `rounds >=
MIN_ROUNDS`, `salt`, `id`, `encrypted_blob`, `checksum` all present, and
`version == 1`. -/
def EncryptedShape (k : PrivKeyRecord) : Prop :=
  k.pbkdf_alg = some PBKDF_ALG ∧ PBKDF_MINROUNDS ≤ k.rounds ∧
  k.salt.isSome = true ∧ k.id.isSome = true ∧ k.encrypted_blob.isSome = true ∧
  k.checksum.isSome = true ∧ k.version = 1

/-- The *Plaintext* sane shape, stated from the spec's words (§3):
`pbkdf_algorithm` absent (or not the supported KDF name), `id` and
`encrypted_blob` present, `version == 1`. -/
def PlaintextShape (k : PrivKeyRecord) : Prop :=
  (k.pbkdf_alg = none ∨ ∃ a, k.pbkdf_alg = some a ∧ a ≠ PBKDF_ALG) ∧
  k.id.isSome = true ∧ k.encrypted_blob.isSome = true ∧ k.version = 1

/-- C8: `asignify_private_key_is_sane` returns `true` exactly on the two
spec shapes; every other record is rejected.  The check is a pure function
of the record (the embedding is a plain function, mirroring that the C
code only reads `privk`), so it has no side effects. -/
theorem private_key_is_sane_iff_shapes (k : PrivKeyRecord) :
    asignify_private_key_is_sane k = true ↔ EncryptedShape k ∨ PlaintextShape k := by
  unfold asignify_private_key_is_sane pbkdfAlgMatches EncryptedShape PlaintextShape
  rcases hA : k.pbkdf_alg with _ | a
  · by_cases hv : k.version = 1 <;> simp [hA, hv]
  · by_cases hEq : a = PBKDF_ALG
    · by_cases h1 : PBKDF_MINROUNDS ≤ k.rounds <;>
        by_cases h2 : k.salt.isSome = true <;>
        by_cases hv : k.version = 1 <;>
        simp [hA, hEq, h1, h2, hv, and_assoc]
    · by_cases hv : k.version = 1 <;> simp [hA, hEq, hv]

/-- C2: on every exit path of `asignify_private_data_unpack_key` — success,
missing password capability, canary/overflow violation, derivation
failure, or checksum mismatch — the record's allocated fields are released
(`cleaned`), the record's blob is zeroed before being freed, and the stack
`password` and `xorkey` arrays are zeroed before return whenever they held
the password (handed to the capability) respectively the derived key
(written by a successful derivation). -/
theorem unpack_key_zeroizes_secrets (privk : PrivKeyRecord) (cb : Option PasswordCb)
    (canary pwInit xkInit blob : List Nat)
    (kdf : List Nat → List Nat → Nat → Option (List Nat))
    (digest : List Nat → List Nat)
    (hblob : privk.encrypted_blob = some blob) (hlen : blob.length = 64)
    (hxk : xkInit.length = 64) :
    (asignify_private_data_unpack_key privk cb canary pwInit xkInit kdf digest).cleaned
        = true ∧
    (asignify_private_data_unpack_key privk cb canary pwInit xkInit kdf digest).blobAtFree
        = some (List.replicate 64 0) ∧
    ((asignify_private_data_unpack_key privk cb canary pwInit xkInit kdf
          digest).passwordHeld = true →
      (asignify_private_data_unpack_key privk cb canary pwInit xkInit kdf digest).password
        = List.replicate PASSWORD_BUF_LEN 0) ∧
    ((asignify_private_data_unpack_key privk cb canary pwInit xkInit kdf
          digest).xorkeyHeld = true →
      (asignify_private_data_unpack_key privk cb canary pwInit xkInit kdf digest).xorkey
        = List.replicate 64 0) := by
  have hz0 : memzeroPrefix 64 (List.replicate 64 0) = List.replicate 64 0 :=
    memzeroPrefixEq 64 _ (by simp)
  have hclean : cleanupBlobContents (some blob) = some (List.replicate 64 0) := by
    simp [cleanupBlobContents, crypto_sign_SECRETKEYBYTES, memzeroPrefixEq 64 blob hlen]
  have hb1 : ∀ key : List Nat,
      (List.zipWith (fun a b => a ^^^ b) (blob.take crypto_sign_SECRETKEYBYTES)
          ((key ++ xkInit.drop key.length).take crypto_sign_SECRETKEYBYTES) ++
        blob.drop crypto_sign_SECRETKEYBYTES).length = 64 := by
    intro key
    rw [show crypto_sign_SECRETKEYBYTES = 64 from rfl]
    rw [dropOfLengthLe blob 64 hlen.le]
    simp [hlen, hxk]
    omega
  have hdz : ∀ l : List Nat, l.length = 64 →
      memzeroPrefix crypto_sign_SECRETKEYBYTES
          (memzeroPrefix crypto_sign_SECRETKEYBYTES l) = List.replicate 64 0 := by
    intro l hl
    rw [show crypto_sign_SECRETKEYBYTES = 64 from rfl, memzeroPrefixEq 64 l hl, hz0]
  rcases hA : privk.pbkdf_alg with _ | alg
  · refine ⟨?_, ?_, ?_, ?_⟩ <;>
      simp [asignify_private_data_unpack_key, hA, hblob, cleanupBlobContents,
        crypto_sign_SECRETKEYBYTES, memzeroPrefixEq 64 blob hlen, hz0] <;>
      decide
  · rcases cb with _ | f
    · refine ⟨?_, ?_, ?_, ?_⟩ <;>
        simp [asignify_private_data_unpack_key, hA, hblob, cleanupBlobContents,
          crypto_sign_SECRETKEYBYTES, memzeroPrefixEq 64 blob hlen]
    · simp only [asignify_private_data_unpack_key, hA, hblob, Option.getD_some]
      rcases hq : f (pwInit.take (PASSWORD_BUF_LEN - CANARY_LEN) ++ canary) with ⟨pw1, r⟩
      dsimp only
      by_cases hC : r ≤ 0 ∨ ((PASSWORD_BUF_LEN - CANARY_LEN : Nat) : Int) < r ∨
          (pw1.drop (PASSWORD_BUF_LEN - CANARY_LEN)).take CANARY_LEN ≠
            canary.take CANARY_LEN
      · rw [if_pos hC]
        exact ⟨rfl, hclean, fun _ => rfl, by simp⟩
      · rw [if_neg hC]
        rcases hk : kdf (pw1.take r.toNat) ((privk.salt.getD []).take SALT_LEN)
            privk.rounds with _ | key
        · exact ⟨rfl, hclean, fun _ => rfl, by simp⟩
        · refine ⟨?_, ?_, ?_, ?_⟩
          · rw [apply_ite UnpackFinal.cleaned]
            simp
          · rw [apply_ite UnpackFinal.blobAtFree]
            simp only [ite_self]
            rw [hdz _ (hb1 key)]
          · intro _
            rw [apply_ite UnpackFinal.password]
            simp
          · intro _
            rw [apply_ite UnpackFinal.xorkey]
            simp

theorem dropDrop {α : Type} : ∀ (l : List α) (a b : Nat),
    (l.drop a).drop b = l.drop (a + b)
  | _, 0, _ => by simp
  | [], _ + 1, _ => by simp
  | _ :: xs, a + 1, b => by
      simpa [Nat.succ_add] using dropDrop xs a b

/-- The paired test-side "wrap" helper (§8): the encrypted record whose
blob is the plaintext XOR the KDF-derived key and whose checksum is the
digest of the plaintext. -/
def wrapRecord (plaintext key salt idb alg : List Nat) (rounds : Nat)
    (digest : List Nat → List Nat) : PrivKeyRecord :=
  { version := 1, pbkdf_alg := some alg, rounds := rounds, salt := some salt,
    id := some idb,
    encrypted_blob := some (List.zipWith (fun a b => a ^^^ b) plaintext key),
    checksum := some (digest plaintext) }

/-- C1: for every sane encrypted record produced by wrapping a plaintext
secret and every password capability that writes that password inside the
usable region (first `r = |pwd|` bytes, `0 < r ≤ 1014`) and leaves the
canary bytes untouched, `asignify_private_data_unpack_key` succeeds and
returns the pre-encryption plaintext together with the record's id. -/
theorem unpack_key_encrypted_roundtrip
    (plaintext key salt idb pwd canary pwInit xkInit alg : List Nat) (rounds : Nat)
    (f : PasswordCb)
    (kdf : List Nat → List Nat → Nat → Option (List Nat))
    (digest : List Nat → List Nat)
    (hpt : plaintext.length = 64) (hkey : key.length = 64)
    (hsalt : salt.length = 16) (hid : idb.length = 8)
    (hpw : pwInit.length = 1024) (hcan : canary.length = 10)
    (hplen0 : 0 < pwd.length) (hplen1 : pwd.length ≤ 1014)
    (halg : alg = PBKDF_ALG) (hrounds : PBKDF_MINROUNDS ≤ rounds)
    (hkdf : kdf pwd salt rounds = some key)
    (hcb : f (pwInit.take 1014 ++ canary) =
      (pwd ++ (pwInit.take 1014 ++ canary).drop pwd.length, (pwd.length : Int))) :
    asignify_private_key_is_sane (wrapRecord plaintext key salt idb alg rounds digest)
        = true ∧
    (asignify_private_data_unpack_key
        (wrapRecord plaintext key salt idb alg rounds digest)
        (some f) canary pwInit xkInit kdf digest).ret =
      some { data := plaintext, data_len := crypto_sign_SECRETKEYBYTES,
             id := idb, id_len := KEY_ID_LEN } := by
  have hlen : plaintext.length = key.length := hpt.trans hkey.symm
  have hblob0 : (List.zipWith (fun a b => a ^^^ b) plaintext key).length = 64 := by
    simp [hpt, hkey]
  constructor
  · simp [asignify_private_key_is_sane, wrapRecord, pbkdfAlgMatches, halg, hrounds]
  · simp only [asignify_private_data_unpack_key, wrapRecord, Option.getD_some,
      show PASSWORD_BUF_LEN = 1024 from rfl, show CANARY_LEN = 10 from rfl,
      show (1024 : Nat) - 10 = 1014 from rfl,
      show SALT_LEN = 16 from rfl, show crypto_sign_SECRETKEYBYTES = 64 from rfl,
      show BLAKE2B_OUTBYTES = 64 from rfl, show KEY_ID_LEN = 8 from rfl]
    rw [hcb]
    dsimp only
    have hdrop : (pwd ++ (pwInit.take 1014 ++ canary).drop pwd.length).drop 1014 =
        canary := by
      rw [dropAppendOfLe pwd _ 1014 hplen1, dropDrop,
        Nat.add_sub_cancel' hplen1,
        dropAppendOfLe _ canary 1014
          (by simp [List.length_take, hpw]),
        show (pwInit.take 1014).length = 1014 by simp [List.length_take, hpw]]
      simp
    have hneg : ¬((pwd.length : Int) ≤ 0 ∨ ((1014 : Nat) : Int) < (pwd.length : Int) ∨
        ((pwd ++ (pwInit.take 1014 ++ canary).drop pwd.length).drop 1014).take 10 ≠
          canary.take 10) := by
      rw [hdrop]
      rintro (h | h | h)
      · omega
      · omega
      · exact h rfl
    rw [if_neg hneg]
    rw [Int.toNat_ofNat, takeAppendLen pwd _, takeOfLengthEq salt 16 hsalt, hkdf]
    dsimp only
    have hxk0 : (key ++ xkInit.drop key.length).take 64 = key := by
      rw [← hkey]
      exact takeAppendLen key _
    rw [takeOfLengthEq _ 64 hblob0, hxk0, dropOfLengthLe _ 64 hblob0.le,
      List.append_nil, zipWithXorCancel plaintext key hlen,
      takeOfLengthEq plaintext 64 hpt]
    rw [if_neg (by simp)]
    rw [takeOfLengthEq idb 8 hid]

/-- A concrete record exercising the zeroization theorem (plaintext shape,
blob of 64 sevens). -/
def zeroizeWitnessRecord : PrivKeyRecord :=
  { version := 1, pbkdf_alg := none, rounds := 0, salt := none,
    id := some (List.replicate 8 1), encrypted_blob := some (List.replicate 64 7),
    checksum := none }

/-- Witness for the C2 theorem at a concrete record and collaborators. -/
theorem unpack_key_zeroizes_secrets_witness :
    (List.replicate 64 7).length = 64 ∧
    ((asignify_private_data_unpack_key zeroizeWitnessRecord none [] []
          (List.replicate 64 0) (fun _ _ _ => none) (fun l => l)).cleaned = true ∧
      (asignify_private_data_unpack_key zeroizeWitnessRecord none [] []
          (List.replicate 64 0) (fun _ _ _ => none) (fun l => l)).blobAtFree =
        some (List.replicate 64 0) ∧
      ((asignify_private_data_unpack_key zeroizeWitnessRecord none [] []
            (List.replicate 64 0) (fun _ _ _ => none) (fun l => l)).passwordHeld =
          true →
        (asignify_private_data_unpack_key zeroizeWitnessRecord none [] []
            (List.replicate 64 0) (fun _ _ _ => none) (fun l => l)).password =
          List.replicate PASSWORD_BUF_LEN 0) ∧
      ((asignify_private_data_unpack_key zeroizeWitnessRecord none [] []
            (List.replicate 64 0) (fun _ _ _ => none) (fun l => l)).xorkeyHeld =
          true →
        (asignify_private_data_unpack_key zeroizeWitnessRecord none [] []
            (List.replicate 64 0) (fun _ _ _ => none) (fun l => l)).xorkey =
          List.replicate 64 0)) :=
  ⟨by decide,
   unpack_key_zeroizes_secrets zeroizeWitnessRecord none [] []
     (List.replicate 64 0) (List.replicate 64 7) (fun _ _ _ => none) (fun l => l)
     (by decide) (by decide) (by decide)⟩

/-- Witness for the C1 theorem: a concrete wrapped record, password `[7]`,
identity digest, constant KDF, and a capability writing `7` into the first
byte and returning 1. -/
theorem unpack_key_encrypted_roundtrip_witness :
    asignify_private_key_is_sane
        (wrapRecord (List.replicate 64 9) (List.replicate 64 5)
          (List.replicate 16 2) (List.replicate 8 1) PBKDF_ALG 10000
          (fun l => l)) = true ∧
    (asignify_private_data_unpack_key
        (wrapRecord (List.replicate 64 9) (List.replicate 64 5)
          (List.replicate 16 2) (List.replicate 8 1) PBKDF_ALG 10000
          (fun l => l))
        (some (fun buf => (7 :: buf.drop 1, 1))) (List.replicate 10 3)
        (List.replicate 1024 0) (List.replicate 64 0)
        (fun _ _ _ => some (List.replicate 64 5)) (fun l => l)).ret =
      some { data := List.replicate 64 9, data_len := crypto_sign_SECRETKEYBYTES,
             id := List.replicate 8 1, id_len := KEY_ID_LEN } :=
  unpack_key_encrypted_roundtrip (List.replicate 64 9) (List.replicate 64 5)
    (List.replicate 16 2) (List.replicate 8 1) [7] (List.replicate 10 3)
    (List.replicate 1024 0) (List.replicate 64 0) PBKDF_ALG 10000
    (fun buf => (7 :: buf.drop 1, 1))
    (fun _ _ _ => some (List.replicate 64 5)) (fun l => l)
    (by decide) (by decide) (by decide) (by decide) (by decide) (by decide)
    (by decide) (by decide) rfl (by decide) rfl (by decide)
